import Mathlib

/-!
Verification development for the deck-it event-aggregation pipeline.

Shallow embedding of the repository's Python sources:
  app.py            — link pipeline orchestration (`process_links`), Flask
                      routes (`deck`, `vote`, `save_selected_events`)
  link_to_file.py   — `download_file`
  website_to_ics.py — `scrape_website`, `extract_events_with_openrouter`,
                      `get_next_available_filename`, `create_ics_file`
  file_to_list.py   — `extract_events_from_ics`

External collaborators (HTTP fetches, the OpenRouter model call, the
BeautifulSoup text extraction, the icalendar parser, urllib path parsing)
are modelled as oracle fields of an `Env` record, per the spec's §1/§6
interface boundary.  Python control flow is modelled with an explicit
error type: `sys.exit(1)` raises `SystemExit`, which is *not* a subclass
of `Exception`, so an `except Exception` handler does not catch it; the
embedding keeps the two kinds of raise separate.

The filesystem (the storage scope of calendar documents) is a list of
(name, content) pairs in directory-listing order.
-/

/-- A raised Python error: `SystemExit` (from `sys.exit`) is not an
`Exception` subclass, ordinary exceptions are. -/
inductive PyErr where
  | systemExit (code : Nat)
  | exc (msg : String)
deriving DecidableEq, Repr

/-- Durable storage scope: files as (name, content) in listing order. -/
abbrev FS := List (String × String)

/-- `open(name, 'w')`: truncate an existing file of that name, else create. -/
def writeFile (fs : FS) (name content : String) : FS :=
  if fs.any (fun p => p.1 = name) then
    fs.map (fun p => if p.1 = name then (name, content) else p)
  else
    fs ++ [(name, content)]

/-! ## String helpers mirroring the Python stdlib pieces the code uses -/

/-- Whether `pat` is an initial segment of `l` (substring-search helper). -/
def leadsWith : List Char → List Char → Bool
  | [], _ => true
  | _ :: _, [] => false
  | p :: ps, c :: cs => p = c && leadsWith ps cs

/-- First occurrence split: `findSplit pat s = some (pre, suf)` with
`s = pre ++ pat ++ suf` at the leftmost occurrence of `pat`. -/
def findSplit (pat : List Char) : List Char → Option (List Char × List Char)
  | [] => none
  | c :: rest =>
    if leadsWith pat (c :: rest) then some ([], (c :: rest).drop pat.length)
    else
      match findSplit pat rest with
      | some (p, suf) => some (c :: p, suf)
      | none => none

/-- `os.path.splitext`: split off the extension at the last dot, provided
some non-dot character precedes that dot (so ".ics" has no extension). -/
def splitext (s : String) : String × String :=
  let cs := s.data
  match cs.reverse.findIdx? (fun c => c = '.') with
  | none => (s, "")
  | some ri =>
    let di := cs.length - 1 - ri
    if (cs.take di).any (fun c => c ≠ '.') then
      (⟨cs.take di⟩, ⟨cs.drop di⟩)
    else (s, "")

/-- Value of a decimal digit string, as Python `int()` on an all-digit
string (leading zeros collapse). -/
def digitsVal (l : List Char) : Nat :=
  l.foldl (fun a c => 10 * a + (c.toNat - 48)) 0

/-- Decimal rendering of a natural number, digit by digit (the model of
Python's `f"{next_num}"`); `fuel ≥ n` makes it exact. -/
def natStrAux : Nat → Nat → List Char
  | 0, _ => []
  | fuel + 1, n =>
    if n = 0 then []
    else natStrAux fuel (n / 10) ++ [Char.ofNat (48 + n % 10)]

/-- Decimal rendering of a natural number. -/
def natStr (n : Nat) : String :=
  if n = 0 then "0" else ⟨natStrAux n n⟩

/-- `fname.lower().endswith('.ics')`. -/
def endsWithIcs (s : String) : Bool :=
  leadsWith ".ics".data.reverse ((s.data.map Char.toLower).reverse)

/-! ## website_to_ics.get_next_available_filename -/

/-- The candidate name `f"{name_prefix}{next_num}{ext}"`. -/
def mkName (pre ext : String) (n : Nat) : String :=
  pre ++ natStr n ++ ext

/-- The `while True` collision loop of `get_next_available_filename`:
try `mkName pre ext n`, `n+1`, … until a name not in the listing is
found.  `fuel` bounds the search; `fs.length + 1` tries always suffice
(proved below), matching the Python loop's guaranteed termination. -/
def findLoop (fs : List String) (pre ext : String) : Nat → Nat → String
  | 0, n => mkName pre ext n
  | fuel + 1, n =>
    let cand := mkName pre ext n
    if cand ∈ fs then findLoop fs pre ext fuel (n + 1) else cand

/-- The `re.match(r'^(.+?)(\d+)$', base_name)` step: succeeds iff the stem
ends in a digit and has length ≥ 2 (the lazy group needs one character);
the digit group is the maximal trailing digit run, except that it never
swallows the stem's first character. -/
def matchTrailing (stem : String) : Option (String × Nat) :=
  let cs := stem.data
  let ds := (cs.reverse.takeWhile Char.isDigit).reverse
  if ds.isEmpty then none
  else if cs.length = ds.length then
    -- stem is all digits: the lazy `.+?` keeps the first character
    if 2 ≤ cs.length then some (⟨cs.take 1⟩, digitsVal (cs.drop 1)) else none
  else some (⟨cs.take (cs.length - ds.length)⟩, digitsVal ds)

/-- website_to_ics.get_next_available_filename over a listing `fs`. -/
def get_next_available_filename (fs : List String) (output : String) : String :=
  if output ∈ fs then
    let p := splitext output
    match matchTrailing p.1 with
    | some (pre, k) => findLoop fs pre p.2 (fs.length + 1) (k + 1)
    | none => findLoop fs p.1 p.2 (fs.length + 1) 2
  else output

/-- Modelled from the spec: §4.3's name collision policy in the spec's own
words — "parse any trailing digit run off the name stem; if present,
increment it; if absent, append 2; repeat incrementing until an unused
name is found" — with no restriction on what precedes the digit run.
Stated only to compare against `get_next_available_filename`. -/
def specNextName (fs : List String) (output : String) : String :=
  if output ∈ fs then
    let p := splitext output
    let ds := (p.1.data.reverse.takeWhile Char.isDigit).reverse
    if ds.isEmpty then findLoop fs p.1 p.2 (fs.length + 1) 2
    else
      findLoop fs ⟨p.1.data.take (p.1.data.length - ds.length)⟩ p.2
        (fs.length + 1) (digitsVal ds + 1)
  else output

/-! ## Environment oracles for the external collaborators -/

/-- Outcome of the HTTP fetch inside `scrape_website`: a network-level
`requests.RequestException`, or a response with a status code and the
plain text that the BeautifulSoup stripping yields on its body. -/
inductive ScrapeResult where
  | netErr
  | resp (status : Nat) (text : String)
deriving DecidableEq, Repr

/-- Outcome of the OpenRouter chat call in
`extract_events_with_openrouter`. -/
inductive LlmResult where
  | netErr
  | badFormat
  | ok (content : String)
deriving DecidableEq, Repr

/-- Outcome of the `requests.get` in `download_file`: a network error, or
a body together with the filename extracted from a
`Content-Disposition: ... filename=` header when one is present. -/
inductive DlResult where
  | netErr
  | ok (cdFilename : Option String) (body : String)
deriving DecidableEq, Repr

/-- A parsed VEVENT component as the icalendar library hands it to
`extract_events_from_ics`: each field `None` when absent at source. -/
structure VComp where
  summary : Option String
  dtstartStr : Option String
  /-- `str(start_dt.date())` when DTSTART is present and has a `date`
  attribute, else `none`. -/
  dtstartDate : Option String
  dtendStr : Option String
  location : Option String
  description : Option String
  icstext : String
deriving DecidableEq, Repr

/-- The external collaborators, fixed for one pipeline run. -/
structure Env where
  scrape : String → ScrapeResult
  /-- whether an OpenRouter API key is configured (module constant or
  environment variable). -/
  apiKey : Bool
  llm : String → LlmResult
  download : String → DlResult
  /-- `os.path.basename(urlparse(url).path)`. -/
  urlBase : String → String
  /-- `icalendar.Calendar.from_ical` on a file's content: the VEVENT
  components in document order, or `none` when parsing raises. -/
  parseCal : String → Option (List VComp)

/-! ## website_to_ics.scrape_website / extract_events_with_openrouter -/

/-- website_to_ics.scrape_website: 403/401/404 call `sys.exit(1)`;
`raise_for_status` on any other 4xx/5xx raises an `HTTPError` (a
`RequestException`) that the surrounding handler also turns into
`sys.exit(1)`; network errors likewise.  Otherwise the BeautifulSoup
stripping yields the response text. -/
def scrape_website (env : Env) (url : String) : Except PyErr String :=
  match env.scrape url with
  | ScrapeResult.netErr => Except.error (PyErr.systemExit 1)
  | ScrapeResult.resp code text =>
    if code = 403 ∨ code = 401 ∨ code = 404 then Except.error (PyErr.systemExit 1)
    else if 400 ≤ code ∧ code ≤ 599 then Except.error (PyErr.systemExit 1)
    else Except.ok text

/-- website_to_ics.extract_events_with_openrouter: missing API key,
request errors, and unexpected response formats all call `sys.exit(1)`;
content longer than 12000 characters is truncated with an ellipsis. -/
def extract_events_with_openrouter (env : Env) (content : String) :
    Except PyErr String :=
  if !env.apiKey then Except.error (PyErr.systemExit 1)
  else
    let truncated :=
      if 12000 < content.length then ⟨content.data.take 12000⟩ ++ "..." else content
    match env.llm truncated with
    | LlmResult.ok ics => Except.ok ics
    | _ => Except.error (PyErr.systemExit 1)

/-! ## website_to_ics.create_ics_file -/

/-- `re.findall(r'BEGIN:VEVENT.*?END:VEVENT', s, re.DOTALL)`: leftmost
non-overlapping matches, each from a `BEGIN:VEVENT` to the earliest
following `END:VEVENT`; scanning resumes after each match.  `fuel`
bounds the scan (the input's length always suffices). -/
def findBlocks : List Char → Nat → List (List Char)
  | _, 0 => []
  | s, fuel + 1 =>
    match findSplit "BEGIN:VEVENT".data s with
    | none => []
    | some (_, afterB) =>
      match findSplit "END:VEVENT".data afterB with
      | none => []
      | some (mid, afterE) =>
        ("BEGIN:VEVENT".data ++ mid ++ "END:VEVENT".data) :: findBlocks afterE fuel

/-- The fixed calendar header written by create_ics_file. -/
def ICS_HEADER : String :=
  "BEGIN:VCALENDAR\nVERSION:2.0\nPRODID:-//Website Event Scraper//EN\nCALSCALE:GREGORIAN\nMETHOD:PUBLISH\n"

/-- website_to_ics.create_ics_file with its default output name
"events.ics": extract the VEVENT blocks; when none are found, write
nothing (empty, non-error result); otherwise write header + blocks +
footer under the next available (collision-free) name. -/
def create_ics_file (fs : FS) (eventsIcs : String) : FS :=
  let blocks := findBlocks eventsIcs.data eventsIcs.data.length
  if blocks.isEmpty then fs
  else
    let name := get_next_available_filename (fs.map (fun p => p.1)) "events.ics"
    let content :=
      ICS_HEADER ++ String.join (blocks.map (fun b => String.mk b ++ "\n"))
        ++ "END:VCALENDAR"
    writeFile fs name content

/-! ## link_to_file.download_file -/

/-- link_to_file.download_file called with `output_filename=None` (as
app.py does): a `RequestException` becomes `sys.exit(1)`; otherwise the
name comes from the Content-Disposition header, else from the URL path's
basename, else the default "canvas.ics"; the body is written under that
name unconditionally (truncating any existing file of that name). -/
def download_file (env : Env) (fs : FS) (url : String) :
    Except PyErr (FS × String) :=
  match env.download url with
  | DlResult.netErr => Except.error (PyErr.systemExit 1)
  | DlResult.ok cd body =>
    let name :=
      match cd with
      | some f => f
      | none =>
        let fn := env.urlBase url
        if fn = "" ∨ fn.data.all (fun c => c ≠ '.') then "canvas.ics" else fn
    Except.ok (writeFile fs name body, name)

/-! ## file_to_list.extract_events_from_ics -/

/-- The normalized event record (the dict built per VEVENT). -/
structure EventRec where
  id : Nat
  title : String
  date : String
  startTime : String
  endTime : String
  location : String
  desc : String
  raw : String
deriving DecidableEq, Repr

/-- One VEVENT component to one record, with the source file's defaults:
title "Untitled Event", location "TBD", empty date/times/description. -/
def compToEvent (n : Nat) (c : VComp) : EventRec :=
  { id := n
    title := c.summary.getD "Untitled Event"
    date := if c.dtstartStr.isSome then c.dtstartDate.getD "" else ""
    startTime := c.dtstartStr.getD ""
    endTime := c.dtendStr.getD ""
    location := c.location.getD "TBD"
    desc := c.description.getD ""
    raw := c.icstext }

/-- The `event_id = start_id; … event_id += 1` loop over the parsed
components. -/
def eventsFromComps : Nat → List VComp → List EventRec
  | _, [] => []
  | n, c :: t => compToEvent n c :: eventsFromComps (n + 1) t

/-- file_to_list.extract_events_from_ics on a file's content: parse via
the external icalendar library and number the VEVENTs from `startId`. -/
def extract_events_from_ics (env : Env) (content : String) (startId : Nat) :
    Except PyErr (List EventRec) :=
  match env.parseCal content with
  | none => Except.error (PyErr.exc "calendar parse error")
  | some comps => Except.ok (eventsFromComps startId comps)

/-! ## app.process_links -/

/-- Python's `str.strip()`: drop whitespace from both ends. -/
def pyStrip (st : String) : String :=
  ⟨((st.data.dropWhile Char.isWhitespace).reverse.dropWhile
      Char.isWhitespace).reverse⟩

/-- app.py's fixed UMass links. -/
def PULSE_LINK : String := "https://umassamherst.campuslabs.com/engage/events.rss"

/-- app.py's fixed UMass events link. -/
def EVENTS_LINK : String := "https://events.umass.edu/calendar/1.xml"

/-- A field of the `user_data` row: the DB row mixes link strings and
boolean preference flags. -/
inductive PV where
  | s (v : String)
  | b (v : Bool)
deriving DecidableEq, Repr

/-- The classification step at the top of process_links: unpack the
6-field row (raising `ValueError` for any other shape, as tuple
unpacking does), build STARTING_LINKS with the preference-driven fixed
links at positions 4 and 5, and keep the non-blank entries of positions
1..5 as website links. -/
def classifyLinks : List PV → Except PyErr (String × List String)
  | [PV.s canvas, PV.s c1, PV.s c2, PV.s c3, PV.b cp, PV.b ue] =>
    let l4 := if cp then PULSE_LINK else ""
    let l5 := if ue then EVENTS_LINK else ""
    Except.ok (canvas, [c1, c2, c3, l4, l5].filter (fun x => pyStrip x != ""))
  | _ => Except.error (PyErr.exc "ValueError: unpack")

/-- One iteration body of the website loop: scrape, extract via the
model, materialize. -/
def scrapeAndMaterialize (env : Env) (fs : FS) (url : String) :
    Except PyErr FS :=
  match scrape_website env url with
  | Except.error e => Except.error e
  | Except.ok text =>
    match extract_events_with_openrouter env text with
    | Except.error e => Except.error e
    | Except.ok ics => Except.ok (create_ics_file fs ics)

/-- The `for url in web_links` loop: `except Exception` catches ordinary
exceptions (logged, loop continues) but not `SystemExit`, which aborts.
Returns the filesystem, the URLs whose processing was attempted, and the
escaping error if any. -/
def webLoop (env : Env) : FS → List String → List String →
    FS × List String × Option PyErr
  | fs, trace, [] => (fs, trace, none)
  | fs, trace, url :: rest =>
    match scrapeAndMaterialize env fs url with
    | Except.ok fs' => webLoop env fs' (trace ++ [url]) rest
    | Except.error (PyErr.exc _) => webLoop env fs (trace ++ [url]) rest
    | Except.error (PyErr.systemExit c) =>
      (fs, trace ++ [url], some (PyErr.systemExit c))

/-- The "Step 3" aggregation loop of process_links: for every file in
listing order whose lowercased name ends in ".ics", extract its events —
note the call `extract_events_from_ics(fname)` passes no `start_id`, so
numbering restarts at 1 for every file; a file that fails to parse is
caught, logged and skipped. -/
def aggregate (env : Env) : FS → List EventRec
  | [] => []
  | (n, c) :: rest =>
    (if endsWithIcs n then
      match extract_events_from_ics env c 1 with
      | Except.ok evs => evs
      | Except.error _ => []
    else []) ++ aggregate env rest

/-- The canvas-download step of process_links: `except Exception` catches
ordinary exceptions but not the `SystemExit` that `download_file` raises
on a failed retrieval. -/
def downloadStep (env : Env) (fs : FS) (link : String) : Except PyErr FS :=
  match download_file env fs link with
  | Except.ok (fs', _) => Except.ok fs'
  | Except.error (PyErr.exc _) => Except.ok fs
  | Except.error (PyErr.systemExit c) => Except.error (PyErr.systemExit c)

/-- app.process_links: classify the row, run the website loop, aggregate
all .ics files, then attempt the canvas download (the blocks labelled
Step 1/2/3 in the source execute in the order 2, 3, 1).  Returns the
attempted website URLs alongside the outcome. -/
def process_links (env : Env) (fs : FS) (row : List PV) :
    List String × Except PyErr (FS × List EventRec) :=
  match classifyLinks row with
  | Except.error e => ([], Except.error e)
  | Except.ok (fileLink, webLinks) =>
    match webLoop env fs [] webLinks with
    | (_, tr, some e) => (tr, Except.error e)
    | (fs1, tr, none) =>
      let allEvents := aggregate env fs1
      match downloadStep env fs1 fileLink with
      | Except.error e => (tr, Except.error e)
      | Except.ok fs2 => (tr, Except.ok (fs2, allEvents))

/-! ## app.py selection state: globals, vote route, persistence -/

/-- The process-global mutable state of app.py that the selection
workflow touches: the `EVENTS` pool, the `stored_yes` accepted list, the
Flask session's `user` key, and the log of `INSERT INTO selected`
writes as (user, data) pairs. -/
structure AppState where
  events : List EventRec
  storedYes : List EventRec
  sessionUser : Option String
  writes : List (String × String)
deriving DecidableEq, Repr

/-- The `databytes` string of save_selected_events:
`"\n".join(e.get('title', 'unknown') for e in stored_yes)` (every record
built by the pipeline carries a title, so the 'unknown' default never
fires in the model). -/
def databytes (l : List EventRec) : String :=
  String.intercalate "\n" (l.map (fun e => e.title))

/-- app.save_selected_events: serialize the whole accepted list and
insert it under `session['user']`; with no user in the session the
lookup raises `KeyError` (modelled as `none`). -/
def save_selected_events (s : AppState) : Option AppState :=
  match s.sessionUser with
  | none => none
  | some u =>
    some { s with writes := s.writes ++ [(u, databytes s.storedYes)] }

/-- The responses the /vote route can produce: `ok`, the 400
invalid-payload error, the 404 event-not-found error, a 500 from the
`KeyError` in save_selected_events, and the implicit `None` return that
falls out of the function when the vote is "no" (a 500 in Flask). -/
inductive VoteResp where
  | ok
  | invalidPayload
  | notFound
  | keyError
  | noneResp
deriving DecidableEq, Repr

/-- app.vote on payload fields `id` and `vote`: the payload check runs
first (missing id or unrecognized vote → 400); then the pool lookup
(404); a "yes" vote appends the event to `stored_yes` unless an entry
with that id is already there, then persists; a "no" vote reaches no
`return` statement at all. -/
def vote (s : AppState) (eid : Option Nat) (v : Option String) :
    AppState × VoteResp :=
  match eid with
  | none => (s, VoteResp.invalidPayload)
  | some i =>
    if v ≠ some "yes" ∧ v ≠ some "no" then (s, VoteResp.invalidPayload)
    else
      match s.events.find? (fun e => e.id = i) with
      | none => (s, VoteResp.notFound)
      | some e =>
        if v = some "yes" then
          let sy :=
            if s.storedYes.any (fun x => x.id = i) then s.storedYes
            else s.storedYes ++ [e]
          let s' := { s with storedYes := sy }
          match save_selected_events s' with
          | some s'' => (s'', VoteResp.ok)
          | none => (s', VoteResp.keyError)
        else (s, VoteResp.noneResp)

/-- The placeholder record the deck route installs when the pipeline
returned no events. -/
def noEventsPlaceholder : EventRec :=
  { id := 1, title := "No events found", date := "N/A", startTime := ""
    endTime := "", location := "", desc := "", raw := "" }

/-- The `for i, e in enumerate(EVENTS, start=1): e['id'] = i` loop of the
deck route. -/
def assignIdsFrom : Nat → List EventRec → List EventRec
  | _, [] => []
  | n, e :: t => { e with id := n } :: assignIdsFrom (n + 1) t

/-- The deck route's pool installation: placeholder when the pipeline
yielded nothing, else re-number by position starting at 1. -/
def deckAssign (l : List EventRec) : List EventRec :=
  if l.isEmpty then [noEventsPlaceholder] else assignIdsFrom 1 l

/-- The operations of the running process that touch the selection
state: installing a (re-run) pool via /deck, logging a user in or out,
and a /vote call. -/
inductive Op where
  | deck (pool : List EventRec)
  | login (u : String)
  | logout
  | vote (eid : Option Nat) (v : Option String)
deriving DecidableEq, Repr

/-- Effect of one operation on the process-global state.  `/deck`
replaces the `EVENTS` pool but leaves `stored_yes` alone; `/logout`
clears only the session; nothing ever resets `stored_yes` or the write
log. -/
def step (s : AppState) : Op → AppState
  | Op.deck pool => { s with events := deckAssign pool }
  | Op.login u => { s with sessionUser := some u }
  | Op.logout => { s with sessionUser := none }
  | Op.vote eid v => (vote s eid v).1

/-- Effect of a sequence of operations. -/
def steps (s : AppState) : List Op → AppState
  | [] => s
  | o :: t => steps (step s o) t

/-! ## Shared concrete fixtures for counterexamples and witnesses -/

/-- A VEVENT component with every optional field absent. -/
def vcEmpty : VComp :=
  { summary := none, dtstartStr := none, dtstartDate := none,
    dtendStr := none, location := none, description := none, icstext := "" }

/-- An environment whose parser recognizes two fixed documents: "DOCA"
with two events and "DOCB" with one. -/
def envAgg : Env :=
  { scrape := fun _ => ScrapeResult.netErr
    apiKey := false
    llm := fun _ => LlmResult.netErr
    download := fun _ => DlResult.netErr
    urlBase := fun _ => ""
    parseCal := fun c =>
      if c = "DOCA" then some [vcEmpty, vcEmpty]
      else if c = "DOCB" then some [vcEmpty] else none }

/-- A concrete pool event with id 1 and title "T". -/
def evT : EventRec :=
  { id := 1, title := "T", date := "", startTime := "", endTime := ""
    location := "", desc := "", raw := "" }

/-- A concrete app state: pool [evT], nothing accepted yet, user "u". -/
def sPool : AppState :=
  { events := [evT], storedYes := [], sessionUser := some "u", writes := [] }

/-- An environment whose download responds with a Content-Disposition
filename "canvas.ics" and body "NEW". -/
def envDl : Env :=
  { scrape := fun _ => ScrapeResult.netErr
    apiKey := false
    llm := fun _ => LlmResult.netErr
    download := fun _ => DlResult.ok (some "canvas.ics") "NEW"
    urlBase := fun _ => ""
    parseCal := fun _ => none }

/-- Environment for the three-website-link batch: w1 and w3 fetch fine
and the model extracts one event block; w2 is blocked with HTTP 403. -/
def envPartial : Env :=
  { scrape := fun u =>
      if u = "w1" then ScrapeResult.resp 200 "T1"
      else if u = "w2" then ScrapeResult.resp 403 "blocked"
      else if u = "w3" then ScrapeResult.resp 200 "T3"
      else ScrapeResult.netErr
    apiKey := true
    llm := fun _ => LlmResult.ok "BEGIN:VEVENTzEND:VEVENT"
    download := fun _ => DlResult.ok none "BODY"
    urlBase := fun _ => ""
    parseCal := fun _ => none }

/-- Environment for the download-failure batch: the single website link
w1 processes fine; the canvas file download hits a network error. -/
def envDlFail : Env :=
  { scrape := fun _ => ScrapeResult.resp 200 "T"
    apiKey := true
    llm := fun _ => LlmResult.ok "BEGIN:VEVENTzEND:VEVENT"
    download := fun _ => DlResult.netErr
    urlBase := fun _ => ""
    parseCal := fun _ => none }

/-- The per-document parse results the aggregation loop works through:
for each listing entry whose lowercased name ends in ".ics", the VEVENT
list when the document parses (parse failures and other files skipped). -/
def parsedDocs (env : Env) : FS → List (List VComp)
  | [] => []
  | (n, c) :: rest =>
    (if endsWithIcs n then
      match env.parseCal c with
      | some comps => [comps]
      | none => []
    else []) ++ parsedDocs env rest

/-! ## Lemmas: decimal rendering, collision-loop freshness -/

/-- Folding one more digit onto a decimal string. -/
theorem digitsVal_append_digit (l : List Char) (c : Char) :
    digitsVal (l ++ [c]) = 10 * digitsVal l + (c.toNat - 48) := by
  simp [digitsVal, List.foldl_append]

/-- The digit characters produced by `natStrAux` decode to their value. -/
theorem toNat_digitChar (r : Nat) (h : r < 10) :
    (Char.ofNat (48 + r)).toNat = 48 + r := by
  interval_cases r <;> decide

/-- With enough fuel, `natStrAux` is a right inverse of `digitsVal`. -/
theorem digitsVal_natStrAux : ∀ fuel n, n ≤ fuel →
    digitsVal (natStrAux fuel n) = n := by
  intro fuel
  induction fuel with
  | zero => intro n hn; interval_cases n; simp [natStrAux, digitsVal]
  | succ f ih =>
    intro n hn
    by_cases h0 : n = 0
    · simp [natStrAux, h0, digitsVal]
    · have hdiv : n / 10 < n := Nat.div_lt_self (Nat.pos_of_ne_zero h0) (by decide)
      have hle : n / 10 ≤ f := by omega
      rw [natStrAux, if_neg h0, digitsVal_append_digit, ih _ hle,
        toNat_digitChar _ (Nat.mod_lt _ (by decide))]
      omega

/-- Decimal rendering is injective. -/
theorem natStr_inj {m n : Nat} (h : natStr m = natStr n) : m = n := by
  have hd : (natStr m).data = (natStr n).data := by rw [h]
  by_cases hm : m = 0 <;> by_cases hn : n = 0
  · omega
  · exfalso
    rw [natStr, if_pos hm, natStr, if_neg hn] at hd
    have h1 : digitsVal ("0" : String).data = digitsVal (natStrAux n n) := by
      simpa using congrArg digitsVal hd
    rw [digitsVal_natStrAux n n le_rfl] at h1
    have h0 : digitsVal ("0" : String).data = 0 := by decide
    omega
  · exfalso
    rw [natStr, if_neg hm, natStr, if_pos hn] at hd
    have h1 : digitsVal (natStrAux m m) = digitsVal ("0" : String).data := by
      simpa using congrArg digitsVal hd
    rw [digitsVal_natStrAux m m le_rfl] at h1
    have h0 : digitsVal ("0" : String).data = 0 := by decide
    omega
  · rw [natStr, if_neg hm, natStr, if_neg hn] at hd
    have : digitsVal (natStrAux m m) = digitsVal (natStrAux n n) := by
      simpa using congrArg digitsVal hd
    rwa [digitsVal_natStrAux m m le_rfl, digitsVal_natStrAux n n le_rfl] at this

/-- Candidate names with the same stem and extension but different
numbers differ. -/
theorem mkName_inj (pre ext : String) : ∀ {m n : Nat},
    mkName pre ext m = mkName pre ext n → m = n := by
  intro m n h
  have hd := congrArg String.data h
  simp only [mkName, String.data_append, List.append_assoc] at hd
  have h1 : (natStr m).data ++ ext.data = (natStr n).data ++ ext.data :=
    List.append_cancel_left hd
  exact natStr_inj (String.ext (List.append_cancel_right h1))

/-- Among any `fs.length + 1` consecutive candidate numbers, some
candidate name is not in the listing. -/
theorem exists_fresh (fs : List String) (pre ext : String) (n : Nat) :
    ∃ m, n ≤ m ∧ m < n + (fs.length + 1) ∧ mkName pre ext m ∉ fs := by
  by_contra hcon
  push_neg at hcon
  set L := fs.length with hL
  have hall : ∀ i, i < L + 1 → mkName pre ext (n + i) ∈ fs := by
    intro i hi
    exact hcon (n + i) (Nat.le_add_right n i) (by omega)
  have hinj : Function.Injective (fun i : Nat => mkName pre ext (n + i)) := by
    intro a b hab
    have := mkName_inj pre ext hab
    omega
  set l := (List.range (L + 1)).map (fun i => mkName pre ext (n + i)) with hl
  have hnodup : l.Nodup := (List.nodup_range _).map hinj
  have hsub : l.toFinset ⊆ fs.toFinset := by
    intro x hx
    rw [List.mem_toFinset] at hx ⊢
    rw [hl, List.mem_map] at hx
    obtain ⟨i, hi, rfl⟩ := hx
    exact hall i (List.mem_range.mp hi)
  have hcard1 : l.toFinset.card = L + 1 := by
    rw [List.toFinset_card_of_nodup hnodup, hl, List.length_map, List.length_range]
  have hcard2 : fs.toFinset.card ≤ L := by
    rw [hL]; exact List.toFinset_card_le fs
  have := Finset.card_le_card hsub
  omega

/-- If some candidate within the fuel window is free, the collision loop
returns a name that is not in the listing. -/
theorem findLoop_not_mem (fs : List String) (pre ext : String) :
    ∀ fuel n, (∃ m, n ≤ m ∧ m < n + fuel ∧ mkName pre ext m ∉ fs) →
    findLoop fs pre ext fuel n ∉ fs := by
  intro fuel
  induction fuel with
  | zero => intro n ⟨m, h1, h2, _⟩; omega
  | succ f ih =>
    intro n ⟨m, h1, h2, h3⟩
    rw [findLoop]
    by_cases hc : mkName pre ext n ∈ fs
    · simp only [hc, if_pos]
      apply ih
      refine ⟨m, ?_, by omega, h3⟩
      rcases Nat.eq_or_lt_of_le h1 with rfl | hlt
      · exact absurd hc h3
      · omega
    · simp only [hc, if_neg, Bool.false_eq_true, not_false_eq_true]

/-- `get_next_available_filename` never returns a name already present
in the listing. -/
theorem get_next_available_filename_fresh (fs : List String) (output : String) :
    get_next_available_filename fs output ∉ fs := by
  rw [get_next_available_filename]
  by_cases h : output ∈ fs
  · simp only [h, if_pos]
    cases hm : matchTrailing (splitext output).1 with
    | some pk =>
      obtain ⟨pre, k⟩ := pk
      exact findLoop_not_mem fs pre (splitext output).2 (fs.length + 1) (k + 1)
        (exists_fresh fs pre (splitext output).2 (k + 1))
    | none =>
      exact findLoop_not_mem fs (splitext output).1 (splitext output).2
        (fs.length + 1) 2 (exists_fresh fs (splitext output).1 (splitext output).2 2)
  · simp only [h, if_neg, Bool.false_eq_true, not_false_eq_true]

/-! ## C6 — materializer name collision policy -/

/-- C6 counterexample: for the base name "9.ics" whose stem is a single
digit, the claim's policy ("parse any trailing digit run and increment
it") yields "10.ics", but the code's regex `^(.+?)(\d+)$` requires a
non-empty character before the digit group, fails to match, and appends
"2", producing "92.ics". -/
theorem c6_digit_stem_counterexample :
    get_next_available_filename ["9.ics"] "9.ics" = "92.ics" ∧
    specNextName ["9.ics"] "9.ics" = "10.ics" ∧
    ("92.ics" : String) ≠ "10.ics" := by
  refine ⟨by decide, by decide, by decide⟩

/-- C6 (amended): for a base name whose file exists, materialization
picks a fresh name by parsing the trailing digit run only when at least
one character precedes the run (an all-digit stem keeps its first
character as the prefix, a single-digit stem counts as run-less) and
incrementing until an unused name is found; "events.ics" colliding twice
yields "events2.ics" then "events3.ics", and the returned name is never
one that already exists. -/
theorem c6_collision_policy :
    (∀ (fs : List String) (base : String),
        get_next_available_filename fs base ∉ fs) ∧
    get_next_available_filename ["events.ics"] "events.ics" = "events2.ics" ∧
    get_next_available_filename ["events.ics", "events2.ics"] "events.ics" =
      "events3.ics" :=
  ⟨get_next_available_filename_fresh, by decide, by decide⟩

/-- C6 witness: the freshness conjunct applied at a concrete listing. -/
theorem c6_collision_policy_witness :
    get_next_available_filename ["events.ics"] "events.ics" ∉ ["events.ics"] :=
  c6_collision_policy.1 ["events.ics"] "events.ics"

/-! ## C5 — no write replaces an existing document -/

/-- C5 counterexample: `download_file` performs no collision check — with
"canvas.ics" already present holding "OLD", downloading writes "NEW"
over it, replacing the content of an existing document. -/
theorem c5_download_overwrites_counterexample :
    download_file envDl [("canvas.ics", "OLD")] "http://x/y" =
      Except.ok ([("canvas.ics", "NEW")], "canvas.ics") ∧
    ("OLD" : String) ≠ "NEW" :=
  ⟨by rfl, by decide⟩

/-- C5 (amended): the materializer never replaces an existing document —
every entry of the storage scope survives `create_ics_file` unchanged
(its write, when any, goes to a collision-free fresh name) — but the
file-download write goes unconditionally to the derived name and can
replace an existing document. -/
theorem c5_materializer_never_overwrites (fs : FS) (ics : String)
    (n c : String) (h : (n, c) ∈ fs) : (n, c) ∈ create_ics_file fs ics := by
  rw [create_ics_file]
  cases hfb : findBlocks ics.data ics.data.length with
  | nil => simpa [hfb] using h
  | cons b bs =>
    simp only [hfb, List.isEmpty_cons, Bool.false_eq_true, if_false]
    rw [writeFile]
    have hfresh :
        get_next_available_filename (fs.map (fun p => p.1)) "events.ics" ∉
          fs.map (fun p => p.1) :=
      get_next_available_filename_fresh _ _
    have hany : (fs.any (fun p =>
        p.1 = get_next_available_filename (fs.map (fun p => p.1)) "events.ics")) =
        false := by
      rw [List.any_eq_false]
      intro p hp hpn
      exact hfresh (List.mem_map.mpr ⟨p, hp, by simpa using hpn⟩)
    rw [hany]
    simp only [Bool.false_eq_true, if_false]
    exact List.mem_append_left _ h

/-- C5 witness: a concrete existing entry survives a materializer write
that does find event blocks. -/
theorem c5_materializer_never_overwrites_witness :
    ("events.ics", "X") ∈
      create_ics_file [("events.ics", "X")] "BEGIN:VEVENTzEND:VEVENT" :=
  c5_materializer_never_overwrites _ _ _ _ (by decide)

/-! ## C4 — aggregator id assignment -/

/-- The ids handed out by the numbering loop are consecutive from the
start id. -/
theorem eventsFromComps_map_id : ∀ (k : Nat) (l : List VComp),
    (eventsFromComps k l).map (fun e => e.id) = List.range' k l.length := by
  intro k l
  induction l generalizing k with
  | nil => simp [eventsFromComps]
  | cons c t ih =>
    simp [eventsFromComps, compToEvent, List.range'_succ, ih]

/-- The deck route's re-numbering assigns consecutive ids from its start. -/
theorem assignIdsFrom_map_id : ∀ (k : Nat) (l : List EventRec),
    (assignIdsFrom k l).map (fun e => e.id) = List.range' k l.length := by
  intro k l
  induction l generalizing k with
  | nil => simp [assignIdsFrom]
  | cons e t ih => simp [assignIdsFrom, List.range'_succ, ih]

/-- C4 counterexample: two parseable documents with two and one events —
the aggregated sequence returned by the pipeline carries ids [1, 2, 1]
(numbering restarts at 1 for every document because
`extract_events_from_ics(fname)` is called without `start_id`), which is
not the bijection [1, 2, 3] onto 1..3 the claim states. -/
theorem c4_ids_restart_counterexample :
    (aggregate envAgg [("a.ics", "DOCA"), ("b.ics", "DOCB")]).map
      (fun e => e.id) = [1, 2, 1] ∧
    ([1, 2, 1] : List Nat) ≠ List.range' 1 3 := by
  refine ⟨by rfl, by decide⟩

/-- C4 (amended): the aggregation loop numbers events per document — its
id sequence is the concatenation, over parsed documents in discovery
order, of 1..(events in that document); the bijection onto 1..N by
position is established only afterwards, when the deck route re-numbers
the pool (installing the id-1 placeholder when the pool is empty).  Both
functions are deterministic, so re-running on the same documents in the
same order reproduces the same ids. -/
theorem c4_ids_amended :
    (∀ (env : Env) (fs : FS),
        (aggregate env fs).map (fun e => e.id) =
          ((parsedDocs env fs).map (fun d => List.range' 1 d.length)).flatten) ∧
    (∀ l : List EventRec,
        (deckAssign l).map (fun e => e.id) =
          if l.isEmpty then [1] else List.range' 1 l.length) := by
  constructor
  · intro env fs
    induction fs with
    | nil => simp [aggregate, parsedDocs]
    | cons p rest ih =>
      obtain ⟨n, c⟩ := p
      rw [aggregate, parsedDocs]
      by_cases hn : endsWithIcs n
      · simp only [hn, if_true]
        cases hpc : env.parseCal c with
        | none =>
          simp [extract_events_from_ics, hpc, ih]
        | some comps =>
          simp [extract_events_from_ics, hpc, ih, eventsFromComps_map_id]
      · simp [hn, ih]
  · intro l
    cases l with
    | nil => simp [deckAssign, noEventsPlaceholder]
    | cons e t =>
      simp [deckAssign, assignIdsFrom_map_id]

/-! ## C8 — link classification -/

/-- C8 counterexample: a 2-entry LinkSet, which the claim says classifies
successfully into ("a", ["b"]), instead fails: the 6-tuple unpack at the
top of process_links raises ValueError for any other row shape, and no
`InsufficientLinks` error exists. -/
theorem c8_short_linkset_counterexample :
    classifyLinks [PV.s "a", PV.s "b"] =
      Except.error (PyErr.exc "ValueError: unpack") ∧
    Except.error (PyErr.exc "ValueError: unpack") ≠
      (Except.ok ("a", ["b"]) : Except PyErr (String × List String)) := by
  exact ⟨rfl, fun h => by cases h⟩

/-- C8 (amended): classification succeeds exactly on the 6-field user
row (four link strings then two boolean preference flags); it then
returns field 0 as the file link and, as website links, the non-blank
entries — in order, at most five — among the three custom links followed
by the Pulse link (when the first flag is set) and the UMass events link
(when the second is set); every other row shape fails with the unpack
ValueError. -/
theorem c8_classifier_amended :
    (∀ (canvas c1 c2 c3 : String) (cp ue : Bool),
        classifyLinks [PV.s canvas, PV.s c1, PV.s c2, PV.s c3, PV.b cp, PV.b ue] =
          Except.ok (canvas,
            [c1, c2, c3, if cp then PULSE_LINK else "",
              if ue then EVENTS_LINK else ""].filter (fun x => pyStrip x != "")) ∧
        ([c1, c2, c3, if cp then PULSE_LINK else "",
            if ue then EVENTS_LINK else ""].filter
          (fun x => pyStrip x != "")).length ≤ 5) ∧
    (∀ row : List PV,
        (∀ (canvas c1 c2 c3 : String) (cp ue : Bool),
          row ≠ [PV.s canvas, PV.s c1, PV.s c2, PV.s c3, PV.b cp, PV.b ue]) →
        classifyLinks row = Except.error (PyErr.exc "ValueError: unpack")) := by
  constructor
  · intro canvas c1 c2 c3 cp ue
    refine ⟨rfl, ?_⟩
    have hle := List.length_filter_le (fun x : String => pyStrip x != "")
      [c1, c2, c3, if cp then PULSE_LINK else "", if ue then EVENTS_LINK else ""]
    simpa using hle
  · intro row h
    rw [classifyLinks.eq_def]
    split
    · rename_i canvas c1 c2 c3 cp ue
      exact absurd rfl (h canvas c1 c2 c3 cp ue)
    · rfl

/-- C8 witness: the failure conjunct applied to the empty row. -/
theorem c8_classifier_amended_witness :
    classifyLinks [] = Except.error (PyErr.exc "ValueError: unpack") :=
  c8_classifier_amended.2 []
    (fun _ _ _ _ _ _ h => List.noConfusion h)

/-! ## Helper lemmas about the vote route -/

/-- Reduced form of the vote route on a payload that carries an id. -/
theorem vote_some_eq (s : AppState) (i : Nat) (v : Option String) :
    vote s (some i) v =
      if v ≠ some "yes" ∧ v ≠ some "no" then (s, VoteResp.invalidPayload)
      else
        match s.events.find? (fun e => e.id = i) with
        | none => (s, VoteResp.notFound)
        | some e =>
          if v = some "yes" then
            let sy :=
              if s.storedYes.any (fun x => x.id = i) then s.storedYes
              else s.storedYes ++ [e]
            let s' := { s with storedYes := sy }
            match save_selected_events s' with
            | some s'' => (s'', VoteResp.ok)
            | none => (s', VoteResp.keyError)
          else (s, VoteResp.noneResp) := rfl

/-- The "no" vote is not a well-formed-payload failure. -/
theorem no_is_valid_payload :
    ¬((some "no" : Option String) ≠ some "yes" ∧
      (some "no" : Option String) ≠ some "no") := by
  intro h; exact h.2 rfl

/-- The "yes" vote is not a well-formed-payload failure. -/
theorem yes_is_valid_payload :
    ¬((some "yes" : Option String) ≠ some "yes" ∧
      (some "yes" : Option String) ≠ some "no") := by
  intro h; exact h.1 rfl

/-- A first accept of a pool event: appended to the accepted set and
persisted. -/
theorem vote_yes_new (s : AppState) (i : Nat) (e : EventRec) (u : String)
    (hf : s.events.find? (fun x => x.id = i) = some e)
    (hu : s.sessionUser = some u)
    (ha : s.storedYes.any (fun x => x.id = i) = false) :
    vote s (some i) (some "yes") =
      ({ s with storedYes := s.storedYes ++ [e],
                writes := s.writes ++ [(u, databytes (s.storedYes ++ [e]))] },
        VoteResp.ok) := by
  rw [vote_some_eq, if_neg yes_is_valid_payload, hf]
  simp only [if_pos rfl, ha, Bool.false_eq_true, if_false, if_true,
    save_selected_events, hu]

/-- A repeat accept of an already-accepted id: the accepted set is left
as is and the current set is persisted again. -/
theorem vote_yes_dup (s : AppState) (i : Nat) (e : EventRec) (u : String)
    (hf : s.events.find? (fun x => x.id = i) = some e)
    (hu : s.sessionUser = some u)
    (ha : s.storedYes.any (fun x => x.id = i) = true) :
    vote s (some i) (some "yes") =
      ({ s with writes := s.writes ++ [(u, databytes s.storedYes)] },
        VoteResp.ok) := by
  rw [vote_some_eq, if_neg yes_is_valid_payload, hf]
  simp only [if_pos rfl, ha, if_true, save_selected_events, hu]

/-- No vote call ever removes entries from the accepted set: the
resulting `stored_yes` extends the previous one. -/
theorem vote_storedYes_extend (s : AppState) (eid : Option Nat)
    (v : Option String) :
    ∃ t, (vote s eid v).1.storedYes = s.storedYes ++ t := by
  cases eid with
  | none => exact ⟨[], by simp [vote]⟩
  | some i =>
    rw [vote_some_eq]
    by_cases hv : v ≠ some "yes" ∧ v ≠ some "no"
    · exact ⟨[], by rw [if_pos hv]; simp⟩
    · have hv' : v = some "yes" ∨ v = some "no" := by tauto
      rw [if_neg hv]
      cases hf : s.events.find? (fun e => e.id = i) with
      | none => exact ⟨[], by simp⟩
      | some e =>
        rcases hv' with rfl | rfl
        · rcases Bool.eq_false_or_eq_true
            (s.storedYes.any (fun x => x.id = i)) with ha | ha
          · exact ⟨[], by
              cases hu : s.sessionUser <;>
                simp [save_selected_events, hu, ha]⟩
          · exact ⟨[e], by
              cases hu : s.sessionUser <;>
                simp [save_selected_events, hu, ha]⟩
        · exact ⟨[], by simp⟩

/-- An accept on a found event answers ok or keyError, never an error
response, regardless of session state. -/
theorem vote_yes_found_resp (s : AppState) (i : Nat) (e : EventRec)
    (hf : s.events.find? (fun x => x.id = i) = some e) :
    (vote s (some i) (some "yes")).2 = VoteResp.ok ∨
    (vote s (some i) (some "yes")).2 = VoteResp.keyError := by
  rw [vote_some_eq, if_neg yes_is_valid_payload, hf]
  simp only [if_pos rfl]
  cases save_selected_events
      { s with storedYes :=
          if s.storedYes.any (fun x => x.id = i) then s.storedYes
          else s.storedYes ++ [e] } <;> simp

/-! ## C9 — vote error classification -/

/-- C9 counterexample: id 2 is not in the pool, so the claim requires the
UnknownEvent failure; but the payload check runs first and the
unrecognized vote "maybe" yields the invalid-payload (InvalidVote-style)
error instead — UnknownEvent is not raised exactly when the id is
unknown. -/
theorem c9_precedence_counterexample :
    vote sPool (some 2) (some "maybe") = (sPool, VoteResp.invalidPayload) ∧
    VoteResp.invalidPayload ≠ VoteResp.notFound :=
  ⟨rfl, by decide⟩

/-- C9 (amended): the vote route fails with the invalid-payload error
exactly when the id is missing or the vote is neither "yes" nor "no"
(this check runs first, so it also fires when the id is additionally
unknown), and fails with the event-not-found error exactly when the
payload carries an id and a recognized vote but the id is not in the
current pool; both errors are synchronous and leave the entire state —
pool, accepted set, session and write log — unchanged. -/
theorem c9_error_characterization :
    ∀ (s : AppState) (eid : Option Nat) (v : Option String),
      ((vote s eid v).2 = VoteResp.invalidPayload ↔
        (eid = none ∨ (v ≠ some "yes" ∧ v ≠ some "no"))) ∧
      ((vote s eid v).2 = VoteResp.notFound ↔
        (∃ i, eid = some i ∧ (v = some "yes" ∨ v = some "no") ∧
          s.events.find? (fun e => e.id = i) = none)) ∧
      (((vote s eid v).2 = VoteResp.invalidPayload ∨
          (vote s eid v).2 = VoteResp.notFound) →
        (vote s eid v).1 = s) := by
  intro s eid v
  cases eid with
  | none => exact ⟨by simp [vote], by simp [vote], fun _ => rfl⟩
  | some i =>
    by_cases hv : v ≠ some "yes" ∧ v ≠ some "no"
    · have hev : vote s (some i) v = (s, VoteResp.invalidPayload) := by
        rw [vote_some_eq, if_pos hv]
      rw [hev]
      refine ⟨by simp [hv], ?_, fun _ => rfl⟩
      simp only [Prod.snd]
      constructor
      · intro h; cases h
      · rintro ⟨j, hj, hyn, _⟩
        rcases hyn with h1 | h1
        · exact absurd h1 hv.1
        · exact absurd h1 hv.2
    · have hv' : v = some "yes" ∨ v = some "no" := by tauto
      cases hfind : s.events.find? (fun e => e.id = i) with
      | none =>
        have hev : vote s (some i) v = (s, VoteResp.notFound) := by
          rw [vote_some_eq, if_neg hv, hfind]
        rw [hev]
        refine ⟨?_, ?_, fun _ => rfl⟩
        · simp only [Prod.snd]
          constructor
          · intro h; cases h
          · rintro (h | h)
            · cases h
            · exact absurd h hv
        · simp only [Prod.snd, true_iff]
          exact ⟨i, rfl, hv', hfind⟩
      | some e =>
        rcases hv' with rfl | rfl
        · rcases vote_yes_found_resp s i e hfind with hr | hr <;>
          · rw [hr] at *
            refine ⟨?_, ?_, ?_⟩
            · rw [hr]
              constructor
              · intro h; cases h
              · rintro (h | h)
                · cases h
                · exact absurd rfl h.1
            · rw [hr]
              constructor
              · intro h; cases h
              · rintro ⟨j, hj, _, hfj⟩
                cases hj
                rw [hfind] at hfj
                cases hfj
            · rw [hr]
              rintro (h | h) <;> cases h
        · have hev : vote s (some i) (some "no") = (s, VoteResp.noneResp) := by
            rw [vote_some_eq, if_neg no_is_valid_payload, hfind]
            simp
          rw [hev]
          refine ⟨?_, ?_, fun _ => rfl⟩
          · simp only [Prod.snd]
            constructor
            · intro h; cases h
            · rintro (h | h)
              · cases h
              · exact absurd rfl h.2
          · simp only [Prod.snd]
            constructor
            · intro h; cases h
            · rintro ⟨j, hj, _, hfj⟩
              cases hj
              rw [hfind] at hfj
              cases hfj

/-- C9 witness: the amended characterization applied at a concrete
state, unknown id and invalid vote. -/
theorem c9_error_characterization_witness :
    (vote sPool (some 2) (some "maybe")).1 = sPool :=
  (c9_error_characterization sPool (some 2) (some "maybe")).2.2
    (Or.inl ((c9_error_characterization sPool (some 2) (some "maybe")).1.mpr
      (Or.inr ⟨by decide, by decide⟩)))

/-! ## C3 — accept/reject state machine -/

/-- C3 counterexample: a reject vote on undecided id 1 records nothing
(the state is bit-for-bit unchanged and the route produces the implicit
None response, not a success), and a subsequent accept on the same id
still adds it to the accepted set — so a reject does not move the id to
a terminal rejected state. -/
theorem c3_reject_not_terminal_counterexample :
    (vote sPool (some 1) (some "no")).1 = sPool ∧
    (vote sPool (some 1) (some "no")).2 = VoteResp.noneResp ∧
    ((vote ((vote sPool (some 1) (some "no")).1) (some 1) (some "yes")).1.storedYes.any
      (fun e => e.id = 1)) = true :=
  ⟨rfl, rfl, by decide⟩

/-- C3 (amended): an accept on an undecided pool id appends it to the
accepted set; acceptance is terminal — no vote call ever removes an
accepted id, and re-submitting accept for it leaves the accepted set
unchanged.  A reject vote performs no transition at all: the state is
unchanged, the id stays undecided (a later accept still accepts it) and
the call yields no success response — no rejected state is tracked. -/
theorem c3_accept_terminal_reject_untracked :
    (∀ (s : AppState) (i : Nat) (e : EventRec),
        s.events.find? (fun x => x.id = i) = some e →
        s.storedYes.any (fun x => x.id = i) = false →
        (vote s (some i) (some "yes")).1.storedYes = s.storedYes ++ [e]) ∧
    (∀ (s : AppState) (eid : Option Nat) (v : Option String) (i : Nat),
        s.storedYes.any (fun x => x.id = i) = true →
        (vote s eid v).1.storedYes.any (fun x => x.id = i) = true) ∧
    (∀ (s : AppState) (i : Nat),
        s.storedYes.any (fun x => x.id = i) = true →
        (vote s (some i) (some "yes")).1.storedYes = s.storedYes) ∧
    (∀ (s : AppState) (i : Nat),
        (vote s (some i) (some "no")).1 = s ∧
        (vote s (some i) (some "no")).2 ≠ VoteResp.ok) := by
  refine ⟨?_, ?_, ?_, ?_⟩
  · intro s i e hf ha
    rw [vote_some_eq, if_neg yes_is_valid_payload, hf]
    simp only [if_pos rfl, ha, Bool.false_eq_true, if_false, if_true]
    cases hu : s.sessionUser <;> simp [save_selected_events, hu]
  · intro s eid v i ha
    obtain ⟨t, ht⟩ := vote_storedYes_extend s eid v
    rw [ht, List.any_append, ha, Bool.true_or]
  · intro s i ha
    rw [vote_some_eq, if_neg yes_is_valid_payload]
    cases hf : s.events.find? (fun x => x.id = i) with
    | none => rfl
    | some e =>
      simp only [if_pos rfl, ha, if_true]
      cases hu : s.sessionUser <;> simp [save_selected_events, hu]
  · intro s i
    rw [vote_some_eq, if_neg no_is_valid_payload]
    cases hf : s.events.find? (fun x => x.id = i) with
    | none => exact ⟨rfl, by simp⟩
    | some e => exact ⟨by simp, by simp⟩

/-- C3 witness: a first accept of the concrete pool event appends it. -/
theorem c3_accept_terminal_reject_untracked_witness :
    (vote sPool (some 1) (some "yes")).1.storedYes = [] ++ [evT] :=
  c3_accept_terminal_reject_untracked.1 sPool 1 evT (by decide) (by decide)

/-! ## C7 — accept idempotence -/

/-- C7 (confirmed): accepting the same pool id twice (starting from a
state with no accepted entry for it) leaves exactly one entry for that
id in the accepted set, and the second persistence write carries content
equal to the first — both serialize the titles of the accepted set that
the first accept produced. -/
theorem c7_accept_idempotent :
    ∀ (s : AppState) (i : Nat) (e : EventRec) (u : String),
      s.events.find? (fun x => x.id = i) = some e →
      s.storedYes.countP (fun x => x.id = i) = 0 →
      s.sessionUser = some u →
      ((vote ((vote s (some i) (some "yes")).1) (some i) (some "yes")).1.storedYes.countP
          (fun x => x.id = i) = 1 ∧
        (vote s (some i) (some "yes")).1.writes =
          s.writes ++ [(u, databytes (s.storedYes ++ [e]))] ∧
        (vote ((vote s (some i) (some "yes")).1) (some i) (some "yes")).1.writes =
          (vote s (some i) (some "yes")).1.writes ++
            [(u, databytes (s.storedYes ++ [e]))]) := by
  intro s i e u hf h0 hu
  have hei : e.id = i := by simpa using List.find?_some hf
  have ha : s.storedYes.any (fun x => x.id = i) = false := by
    rw [List.any_eq_false]
    intro x hx
    have hnx := List.countP_eq_zero.mp h0 x hx
    simpa using hnx
  have h1 := vote_yes_new s i e u hf hu ha
  set s1 : AppState :=
    { s with storedYes := s.storedYes ++ [e],
             writes := s.writes ++ [(u, databytes (s.storedYes ++ [e]))] }
    with hs1
  have hv1 : (vote s (some i) (some "yes")).1 = s1 := by rw [h1]
  have hf2 : s1.events.find? (fun x => x.id = i) = some e := hf
  have hu2 : s1.sessionUser = some u := hu
  have ha2 : s1.storedYes.any (fun x => x.id = i) = true := by
    rw [hs1]
    simp [List.any_append, hei]
  have h2 := vote_yes_dup s1 i e u hf2 hu2 ha2
  refine ⟨?_, ?_, ?_⟩
  · rw [hv1, h2]
    show (s1.storedYes.countP (fun x => x.id = i)) = 1
    rw [hs1]
    simp only [List.countP_append, h0]
    simp [List.countP, List.countP.go, hei]
  · rw [hv1]
  · rw [hv1, h2]

/-- C7 witness: double-accept of the concrete pool event — one entry,
equal write contents. -/
theorem c7_accept_idempotent_witness :
    ((vote ((vote sPool (some 1) (some "yes")).1) (some 1) (some "yes")).1.storedYes.countP
        (fun x => x.id = 1) = 1 ∧
      (vote sPool (some 1) (some "yes")).1.writes =
        [] ++ [("u", databytes ([] ++ [evT]))] ∧
      (vote ((vote sPool (some 1) (some "yes")).1) (some 1) (some "yes")).1.writes =
        (vote sPool (some 1) (some "yes")).1.writes ++
          [("u", databytes ([] ++ [evT]))]) :=
  c7_accept_idempotent sPool 1 evT "u" (by decide) (by decide) (by decide)

/-! ## C10 — the accepted set is a never-cleared process global -/

/-- With no user in the session, an accept mutates the accepted set but
the KeyError aborts before any write is appended. -/
theorem vote_yes_writes_noUser (s : AppState) (i : Nat)
    (hu : s.sessionUser = none) :
    (vote s (some i) (some "yes")).1.writes = s.writes := by
  rw [vote_some_eq, if_neg yes_is_valid_payload]
  cases hf : s.events.find? (fun x => x.id = i) with
  | none => rfl
  | some e =>
    simp only [if_pos rfl, save_selected_events, hu, if_true]

/-- Every single operation extends the accepted set. -/
theorem step_storedYes_extend (s : AppState) (o : Op) :
    ∃ t, (step s o).storedYes = s.storedYes ++ t := by
  cases o with
  | deck pool => exact ⟨[], by simp [step]⟩
  | login u => exact ⟨[], by simp [step]⟩
  | logout => exact ⟨[], by simp [step]⟩
  | vote eid v => exact vote_storedYes_extend s eid v

/-- C10 (confirmed): `stored_yes` is a process global that no operation
ever clears — across deck re-runs (new pool generations), logins,
logouts and votes the accepted set only ever extends — and any write a
single operation appends to the persistence log is the serialization of
the titles of the operation's entire resulting accepted set, under the
identity of the session user current at that operation. -/
theorem c10_accepted_set_process_global :
    (∀ (s : AppState) (ops : List Op),
        ∃ t, (steps s ops).storedYes = s.storedYes ++ t) ∧
    (∀ (s : AppState) (o : Op) (w : String × String),
        w ∈ (step s o).writes →
        w ∈ s.writes ∨ ∃ u, s.sessionUser = some u ∧
          w = (u, databytes ((step s o).storedYes))) := by
  constructor
  · intro s ops
    induction ops generalizing s with
    | nil => exact ⟨[], by simp [steps]⟩
    | cons o t ih =>
      obtain ⟨t1, h1⟩ := step_storedYes_extend s o
      obtain ⟨t2, h2⟩ := ih (step s o)
      exact ⟨t1 ++ t2, by rw [steps, h2, h1, List.append_assoc]⟩
  · intro s o w hw
    cases o with
    | deck pool => exact Or.inl hw
    | login u => exact Or.inl hw
    | logout => exact Or.inl hw
    | vote eid v =>
      simp only [step] at hw ⊢
      cases eid with
      | none => exact Or.inl hw
      | some i =>
        by_cases hv : v ≠ some "yes" ∧ v ≠ some "no"
        · rw [vote_some_eq, if_pos hv] at hw
          exact Or.inl hw
        · have hv' : v = some "yes" ∨ v = some "no" := by tauto
          cases hfind : s.events.find? (fun e => e.id = i) with
          | none =>
            have hev : vote s (some i) v = (s, VoteResp.notFound) := by
              rw [vote_some_eq, if_neg hv, hfind]
            rw [hev] at hw
            exact Or.inl hw
          | some e =>
            rcases hv' with rfl | rfl
            · cases hu : s.sessionUser with
              | none =>
                rw [vote_yes_writes_noUser s i hu] at hw
                exact Or.inl hw
              | some u =>
                rcases Bool.eq_false_or_eq_true
                    (s.storedYes.any (fun x => x.id = i)) with ha | ha
                · have hev := vote_yes_dup s i e u hfind hu ha
                  rw [hev] at hw ⊢
                  rcases List.mem_append.mp hw with h | h
                  · exact Or.inl h
                  · refine Or.inr ⟨u, rfl, ?_⟩
                    simpa using h
                · have hev := vote_yes_new s i e u hfind hu ha
                  rw [hev] at hw ⊢
                  rcases List.mem_append.mp hw with h | h
                  · exact Or.inl h
                  · refine Or.inr ⟨u, rfl, ?_⟩
                    simpa using h
            · have hev : vote s (some i) (some "no") = (s, VoteResp.noneResp) := by
                rw [vote_some_eq, if_neg no_is_valid_payload, hfind]
                simp
              rw [hev] at hw
              exact Or.inl hw

/-- C10 witness: one concrete accept — the only write is the full
serialized accepted set under the current session user. -/
theorem c10_accepted_set_process_global_witness :
    ("u", "T") ∈ sPool.writes ∨ ∃ u, sPool.sessionUser = some u ∧
      ("u", "T") = (u, databytes ((step sPool (Op.vote (some 1) (some "yes"))).storedYes)) :=
  c10_accepted_set_process_global.2 sPool (Op.vote (some 1) (some "yes"))
    ("u", "T") (by decide)

/-! ## C1 — a blocked website link aborts the whole batch -/

/-- C1 (code_bug evaluation): in a batch of three website links whose
second is blocked (HTTP 403), `scrape_website` calls `sys.exit(1)`;
`SystemExit` escapes the `except Exception` handler of process_links,
so the third link — which on its own would have been processed fine —
is never attempted and the batch yields no EventRecords at all, instead
of the records of links 1 and 3. -/
theorem c1_blocked_link_aborts_batch :
    process_links envPartial []
        [PV.s "f", PV.s "w1", PV.s "w2", PV.s "w3", PV.b false, PV.b false] =
      (["w1", "w2"], Except.error (PyErr.systemExit 1)) ∧
    (scrapeAndMaterialize envPartial [] "w3").isOk = true := by
  exact ⟨by rfl, by rfl⟩

/-! ## C2 — a failed file download aborts, but only after website processing -/

/-- C2 (code_bug evaluation): with a canvas link whose download fails
and one website link, the batch does abort with the `SystemExit` from
`download_file` — but only after the website link has been scraped and
materialized (the attempted-URL trace is ["w1"], not []): the blocks
labelled Step 1/2/3 in process_links execute in the order 2, 3, 1, so
the abort does not happen before website processing, and (per C1) a
website fetch failure is equally pipeline-fatal. -/
theorem c2_download_fails_after_website_processing :
    process_links envDlFail []
        [PV.s "file", PV.s "w1", PV.s "", PV.s "", PV.b false, PV.b false] =
      (["w1"], Except.error (PyErr.systemExit 1)) ∧
    download_file envDlFail [] "file" = Except.error (PyErr.systemExit 1) ∧
    (webLoop envDlFail [] [] ["w1"]).2.2 = none := by
  exact ⟨by rfl, by rfl, by rfl⟩
